import Mathlib

/-!
Verification development for the speech-separation domain-adaptation repository.
Each definition below is a shallow embedding of a function of the source tree
(`src/dataset.py`, `src/utils.py`, `src/train_uns.py`, `src/train_dagan.py`,
`src/train_cmvn.py`, `src/test_baseline.py`, `src/domain_cls.py`); the theorems
settle the frozen claims about those functions.

Conventions of the embedding:
* audio sample values are modelled as `Int`, scalar losses and metrics as `ℚ`;
* Python list slicing `a[s:e]` is `pySlice`;
* a Python runtime error (ZeroDivisionError, ValueError from an empty
  `random.randint` range, KeyError, NameError) is modelled as `none` /
  `Except.error`;
* a call to `random.randint(0, re - 1)` is modelled by a seed `r : Nat`
  mapped into the range as `r % re`; quantifying over `r` covers every
  value the call can return.
-/

/-- Python list slice `a[s:e]` for `0 ≤ s, e` (indices clamped to the list). -/
def pySlice {α : Type} (a : List α) (s e : Nat) : List α :=
  (a.take e).drop s

/-- Python float division: `a / b` raises ZeroDivisionError when `b == 0`
(in CPython this holds for float operands as well). -/
def pyDiv (a b : ℚ) : Option ℚ :=
  if b = 0 then none else some (a / b)

namespace wsj0

/-- From `wsj0.pad_audio` (src/dataset.py:90-93):
`base = np.zeros(self.seg_len); base[:ilen] = audio; return base`.
At every call site `ilen = len(audio) < seg_len`, so the result is the audio
followed by zeros up to `seg_len`. -/
def pad_audio (seg_len : Nat) (audio : List Int) (ilen : Nat) : List Int :=
  audio.take ilen ++ List.replicate (seg_len - ilen) 0

/-- From `wsj0.__init__` (src/dataset.py:41-42): in mode `'tr'` an utterance is
kept iff `utt_len >= self.seg_len`. -/
def tr_admits (seg_len utt_len : Nat) : Bool :=
  seg_len ≤ utt_len

/-- From `wsj0.__init__` (src/dataset.py:47-56, 62-71): the `[start, end]`
bounds of the chunks an utterance of length `utt_len` is split into when
`one_chunk_in_utt` is false:
`seg_num = utt_len // seg_len (+1 if remainder)`, chunk `i` spans
`[i*seg_len, (i+1)*seg_len)`, the last chunk clipped to `utt_len`. -/
def seg_bounds (seg_len utt_len : Nat) : List (Nat × Nat) :=
  let seg_num := utt_len / seg_len + (if utt_len % seg_len > 0 then 1 else 0)
  (List.range seg_num).map (fun i =>
    let s := i * seg_len
    let e := (i + 1) * seg_len
    (s, if i = seg_num - 1 then min e utt_len else e))

/-- The record returned by `wsj0.__getitem__` (src/dataset.py:138-140):
`{ 'uid': uid, 'cid': cid, 'ilens': ilen, 'mix': mix_audio, 'ref': sep_audio }`
where `ref` stacks the two reference sources. -/
structure Sample where
  uid : String
  cid : String
  ilens : Nat
  mix : List Int
  ref : List (List Int)
  deriving DecidableEq, Repr

/-- The tail of `wsj0.__getitem__` (src/dataset.py:126-140): slice the three
channels to `[s:e]`, set `ilen` to the sliced mixture length, zero-pad each
channel to `seg_len` when `ilen < seg_len`, and stack the references. -/
def finishItem (seg_len : Nat) (uid cid : String)
    (mix s1 s2 : List Int) (s e : Nat) : Sample :=
  let mix_a := pySlice mix s e
  let s1_a := pySlice s1 s e
  let s2_a := pySlice s2 s e
  let ilen := mix_a.length
  let mix_b := if ilen < seg_len then pad_audio seg_len mix_a ilen else mix_a
  let s1_b := if ilen < seg_len then pad_audio seg_len s1_a ilen else s1_a
  let s2_b := if ilen < seg_len then pad_audio seg_len s2_a ilen else s2_a
  { uid := uid, cid := cid, ilens := ilen, mix := mix_b, ref := [s1_b, s2_b] }

/-- From `wsj0.__getitem__` (src/dataset.py:98-140).  In `one_chunk` mode the
stored bounds are ignored and a start is drawn by
`s = random.randint(0, re - 1)` with `re = len(mix) - seg_len`; that call
raises ValueError (modelled `none`) when the range `[0, re-1]` is empty,
i.e. when `len(mix) ≤ seg_len`.  Otherwise the stored `[s, e]` bounds are
used.  The seed `r` selects one admissible random draw. -/
def getitem (seg_len : Nat) (one_chunk : Bool) (uid cid : String)
    (s e : Nat) (mix s1 s2 : List Int) (r : Nat) : Option Sample :=
  if one_chunk then
    let L := mix.length
    if L ≤ seg_len then
      none
    else
      let re := L - seg_len
      let s := r % re
      let e := s + seg_len
      some (finishItem seg_len uid cid mix s1 s2 s e)
  else
    some (finishItem seg_len uid cid mix s1 s2 s e)

end wsj0

/-- From `inf_data_gen` (src/utils.py:31-34): the generator state is the
loader together with the not-yet-yielded remainder of the current pass. -/
structure GenState (α : Type) where
  loader : List α
  rest : List α
  deriving DecidableEq, Repr

/-- One `next()` on the generator `while True: for s in loader: yield s`.
When the current pass is exhausted the `for` re-iterates the loader.  With an
empty loader the `while True` spins forever without yielding, modelled as
`none`. -/
def genStep {α : Type} : GenState α → Option (α × GenState α)
  | ⟨loader, []⟩ =>
    match loader with
    | [] => none
    | x :: xs => some (x, ⟨loader, xs⟩)
  | ⟨loader, x :: xs⟩ => some (x, ⟨loader, xs⟩)

/-- The generator state right after `inf_data_gen(loader)` is called:
no pass has started yet. -/
def inf_data_gen {α : Type} (loader : List α) : GenState α :=
  ⟨loader, []⟩

/-- The value produced by the `k`-th `next()` call on a generator state
(`none` if the generator diverges before that). -/
def nthYield {α : Type} : GenState α → Nat → Option α
  | g, 0 => (genStep g).map Prod.fst
  | g, k + 1 =>
    match genStep g with
    | none => none
    | some (_, g2) => nthYield g2 k

/-- Gender-pair categories used by the metric partitioning
(`gs = [ 'MM', 'FF', 'MF' ]`, src/test_baseline.py:163). -/
inductive Gender where
  | MM
  | FF
  | MF
  deriving DecidableEq, Repr

/-- The iteration order of the gender dictionaries (insertion order of
`{ g: 0. for g in gs }`). -/
def genderList : List Gender := [Gender.MM, Gender.FF, Gender.MF]

/-- From `Tester.evaluate` (src/test_baseline.py:164-166, 200-205): per-gender
accumulation of the SI-SNRi sum (`gender_SISNRi`) and the count
(`gender_cnt`) over the per-example stream of (gender, SI-SNRi) pairs. -/
def evalAccum (samples : List (Gender × ℚ)) : (Gender → ℚ) × (Gender → ℚ) :=
  samples.foldl
    (fun acc p =>
      ((fun g => if g = p.1 then acc.1 g + p.2 else acc.1 g),
       (fun g => if g = p.1 then acc.2 g + 1 else acc.2 g)))
    ((fun _ => 0), (fun _ => 0))

/-- From `Tester.evaluate` (src/test_baseline.py:221-228): the final loop
`for g in gender_SISNRi: gender_SISNRi[g] /= gender_cnt[g]` divides each
gender sum by its count unconditionally; a zero count raises
ZeroDivisionError (modelled `none`), aborting the loop.
`Trainer.valid` in src/train_cmvn.py:455-457 performs the same unguarded
division. -/
def genderDivLoop (sums cnts : Gender → ℚ) : List Gender → Option (List (Gender × ℚ))
  | [] => some []
  | g :: rest =>
    match pyDiv (sums g) (cnts g) with
    | none => none
    | some q => (genderDivLoop sums cnts rest).map (fun l => (g, q) :: l)

/-- The per-gender averaged SI-SNRi metrics of one `evaluate` run over a
split, as computed by src/test_baseline.py:221-228. -/
def gender_SISNRi_avg (samples : List (Gender × ℚ)) : Option (List (Gender × ℚ)) :=
  genderDivLoop (evalAccum samples).1 (evalAccum samples).2 genderList

/-- Python float values relevant to the gradient-norm guard: a finite value,
infinities, or NaN. -/
inductive PyFloat where
  | val (q : ℚ)
  | inf
  | neg_inf
  | nan
  deriving DecidableEq, Repr

/-- `math.isnan`: true only on NaN (false on infinities). -/
def pyIsNan : PyFloat → Bool
  | .nan => true
  | _ => false

/-- `math.isfinite`: true only on finite values. -/
def pyIsFinite : PyFloat → Bool
  | .val _ => true
  | _ => false

/-- One discriminator (or generator) inner iteration of
`Trainer.train_dis_once` / `train_gen_once`: the scalar loss produced by the
forward pass, the gradient norm returned by `clip_grad_norm_`, and the effect
the deferred `optim.step()` would have on the parameters. -/
structure DisIter (α : Type) where
  d_loss : ℚ
  grad_norm : PyFloat
  optimStep : α → α

/-- The loop state of `train_dis_once`: current parameters, the accumulated
`total_d_loss`, and the number of `Error : grad norm is NaN` lines printed. -/
structure DisState (α : Type) where
  params : α
  total_d_loss : ℚ
  nan_logs : Nat
  deriving Repr

/-- The body of the `for _ in range(self.d_iters)` loop in
`Trainer.train_dis_once` (src/train_uns.py:219-227, src/train_dagan.py:366-372):
`if math.isnan(grad_norm): print(...) else: optim.step()`, then
`total_d_loss += d_loss.item()` unconditionally. -/
def disUpdate {α : Type} (st : DisState α) (it : DisIter α) : DisState α :=
  if pyIsNan it.grad_norm then
    { params := st.params, total_d_loss := st.total_d_loss + it.d_loss,
      nan_logs := st.nan_logs + 1 }
  else
    { params := it.optimStep st.params, total_d_loss := st.total_d_loss + it.d_loss,
      nan_logs := st.nan_logs }

/-- `Trainer.train_dis_once` over its `d_iters` iterations, starting from
parameters `p0`. -/
def train_dis_once {α : Type} (iters : List (DisIter α)) (p0 : α) : DisState α :=
  iters.foldl disUpdate ⟨p0, 0, 0⟩

/-- The checkpoint record written by `Trainer.valid` in src/train_uns.py:311-314:
`{ 'step': step, 'valid_score': ..., 'config': ..., 'g_optim': ..., 'd_optim': ...,
'D_state_dict': ... }`.  Modelled as a key lookup; the integer payload is the
counter value for `'step'` and a dummy 0 for the non-counter entries. -/
def uns_saved_record (step : Int) : String → Option Int :=
  fun k =>
    if k = "step" then some step
    else if k ∈ ["valid_score", "config", "g_optim", "d_optim", "D_state_dict"] then some 0
    else none

/-- The resume path of `Trainer.set_model` in src/train_uns.py:141:
`self.start_epoch = info_dict['epoch'] + 1`; a missing key is a KeyError
(modelled `none`). -/
def uns_resume_start_epoch (info : String → Option Int) : Option Int :=
  (info "epoch").map (fun e => e + 1)

/-- The step sequence executed by `Trainer.exec` in src/train_uns.py:176:
`range(self.start_step, self.total_steps)` where `start_step` comes from
`config['solver']['start_step']`, not from any checkpoint. -/
def uns_exec_steps (start_step total_steps : Nat) : List Nat :=
  List.range' start_step (total_steps - start_step)

/-- The checkpoint record written by `Trainer.valid` in src/train_cmvn.py:469-470:
`{ 'epoch': epoch, 'valid_score': ..., 'config': ... }` plus `'optim'`;
note no `'step'` entry. -/
def cmvn_saved_record (epoch : Int) : String → Option Int :=
  fun k =>
    if k = "epoch" then some epoch
    else if k ∈ ["valid_score", "config", "optim"] then some 0
    else none

/-- The resume path of `Trainer.set_model` in src/train_cmvn.py:213-215:
`self.start_epoch = info_dict['epoch'] + 1` and
`if 'step' in info_dict: self.step = info_dict['step']` with `self.step`
previously initialised to 0 (src/train_cmvn.py:85). -/
def cmvn_resume_start_epoch (info : String → Option Int) : Option Int :=
  (info "epoch").map (fun e => e + 1)

/-- The `self.step` counter after the cmvn resume path (see
`cmvn_resume_start_epoch`): it keeps its initial value 0 unless the record
has a `'step'` entry. -/
def cmvn_resume_step (info : String → Option Int) : Int :=
  match info "step" with
  | some s => s
  | none => 0

/-- A `[B][C][T]` tensor as nested lists (batch, source channel, time). -/
abbrev Tensor3 := List (List (List Int))

/-- `torch.chunk(x, 2, dim = 0)`: splits along the batch dimension into a
first chunk of `ceil(B/2)` rows and the remainder. -/
def chunk2_dim0 (x : Tensor3) : Tensor3 × Tensor3 :=
  let k := (x.length + 1) / 2
  (x.take k, x.drop k)

/-- Elementwise tensor addition (`y1 + y2` on same-shape tensors). -/
def add_t3 (a b : Tensor3) : Tensor3 :=
  List.zipWith (List.zipWith (List.zipWith (· + ·))) a b

/-- `t.view(-1, T)` on a `[B'][C][T]` tensor: row-major flattening of the
leading two dimensions. -/
def view_rows (x : Tensor3) : List (List Int) := x.flatten

/-- From `Trainer.train_dis_once` (src/train_uns.py:199-201) and
`train_gen_once` (src/train_uns.py:245-246):
`y1, y2 = torch.chunk(estimate_source, 2, dim = 0); remix = y1 + y2;
remix = remix.view(-1, T)` applied to the `[B][2][T]` estimate. -/
def uns_remix (est : Tensor3) : List (List Int) :=
  let p := chunk2_dim0 est
  view_rows (add_t3 p.1 p.2)

/-- The remix the claim describes (spec side, for comparison): row `j` is the
sum of example `j`'s own two estimated sources,
`estimate[j,0,:] + estimate[j,1,:]`. -/
def claimed_remix (est : Tensor3) : List (List Int) :=
  est.map (fun ex => List.zipWith (· + ·) (ex.getD 0 []) (ex.getD 1 []))

/-- From `Trainer.valid` (src/train_uns.py:288-304): `total_loss` accumulates
`loss.item()` over the cv loader, then is divided by `len(self.tr_loader)` —
the length of the TRAINING loader, not of the loader that was iterated. -/
def uns_valid_loss (cv_batch_losses : List ℚ) (tr_loader_len : Nat) : ℚ :=
  (cv_batch_losses.foldl (fun acc l => acc + l) 0) / (tr_loader_len : ℚ)

/-- The encoder feature matrix of one utterance, `[F][T]` (feature channel ×
frame), as produced by `self.model.encoder(audio)` in
`Trainer.comp_norm_stat` (src/train_cmvn.py:328). -/
abbrev FeatMat := List (List ℚ)

/-- `spec.mean(dim = -1)` (src/train_cmvn.py:332): per-feature mean over
frames. -/
def mat_mean_last (spec : FeatMat) : List ℚ :=
  spec.map (fun row => row.sum / (row.length : ℚ))

/-- `T = spec.size(-1)` (src/train_cmvn.py:331): the frame count of an
utterance (length of a feature row). -/
def mat_frames (spec : FeatMat) : Nat := (spec.headD []).length

/-- `c * v` broadcast scaling of a feature vector (`mm * ss.unsqueeze(-1)`). -/
def vec_scale (c : ℚ) (v : List ℚ) : List ℚ := v.map (fun x => c * x)

/-- `v / c` broadcast division of a feature vector. -/
def vec_div (v : List ℚ) (c : ℚ) : List ℚ := v.map (fun x => x / c)

/-- Elementwise vector addition. -/
def vec_add (a b : List ℚ) : List ℚ := List.zipWith (· + ·) a b

/-- `torch.stack(l, dim = 0).sum(dim = 0)` over `F`-vectors. -/
def vec_sum0 (F : Nat) (l : List (List ℚ)) : List ℚ :=
  l.foldl vec_add (List.replicate F 0)

/-- First pass of `Trainer.comp_norm_stat` (src/train_cmvn.py:313-340):
collect `(per-utterance mean, frame count)` pairs, then
`m = (mm * ss.unsqueeze(-1)).sum(dim = 0) / ss.sum()`. -/
def comp_mean (F : Nat) (utts : List FeatMat) : List ℚ :=
  let pass1 := utts.map (fun spec => (mat_mean_last spec, mat_frames spec))
  let total : ℚ := (pass1.map (fun p => ((p.2 : ℚ)))).sum
  vec_div (vec_sum0 F (pass1.map (fun p => vec_scale ((p.2 : ℚ)) p.1))) total

/-- `v = ((spec - m.unsqueeze(-1))**2).mean(dim = -1)` (src/train_cmvn.py:353):
per-feature mean squared deviation of an utterance from the fixed mean `m`. -/
def utt_sq_dev (m : List ℚ) (spec : FeatMat) : List ℚ :=
  List.zipWith (fun row mf => (row.map (fun x => (x - mf) ^ 2)).sum / (row.length : ℚ))
    spec m

/-- Second pass of `Trainer.comp_norm_stat` (src/train_cmvn.py:342-360):
collect `(per-utterance squared deviation from m, frame count)` pairs, then
the same frame-count weighted average. -/
def comp_var (F : Nat) (utts : List FeatMat) (m : List ℚ) : List ℚ :=
  let pass2 := utts.map (fun spec => (utt_sq_dev m spec, mat_frames spec))
  let total : ℚ := (pass2.map (fun p => ((p.2 : ℚ)))).sum
  vec_div (vec_sum0 F (pass2.map (fun p => vec_scale ((p.2 : ℚ)) p.1))) total

/-- `Trainer.comp_norm_stat` (src/train_cmvn.py:312-364): two passes, mean
first, then variance against the fixed mean; the pair is handed to
`self.model.set_mv(m, v)`. -/
def comp_norm_stat (F : Nat) (utts : List FeatMat) : List ℚ × List ℚ :=
  let m := comp_mean F utts
  (m, comp_var F utts m)

/-- A torch parameter reduced to its autograd flag. -/
structure PyParam where
  requires_grad : Bool
  deriving DecidableEq, Repr

/-- `freeze_module` from `Trainer.set_model` (src/train_cmvn.py:274-280):
`for param in m.parameters(): param.requires_grad = False`, applied to the
model's encoder and decoder. -/
def freeze_module (ps : List PyParam) : List PyParam :=
  ps.map (fun _ => { requires_grad := false })

/-- The names bound at module scope of src/domain_cls.py when
`DomainClassifier.__init__` runs: its imports plus the classes defined in the
file (`Conv2dClassifier` is NOT among them, and neither are `layers`,
`norm_type`, `act`). -/
def domain_cls_module_scope : List String :=
  ["torch", "nn", "apply_norm", "TemporalConvNet", "GlobalLayerNorm", "EPS",
   "acts", "AvgLayer", "LSTMClassifer", "ConvPatchClassifier", "DomainClassifier",
   "GLN_2D", "CDAN_Dis"]

/-- Python name resolution against a scope: an unbound name raises
NameError. -/
def resolveName (scope : List String) (n : String) : Except String Unit :=
  if n ∈ scope then Except.ok () else Except.error ("NameError: name " ++ n ++ " is not defined")

/-- The branch structure of `DomainClassifier.__init__`
(src/domain_cls.py:106-143) by config `type`, reduced to which free names
each branch must resolve: the `'conv'` branch iterates `enumerate(layers)`
and uses `norm_type` and `act` (src/domain_cls.py:110, 121, 124), none
bound anywhere; `'conv2d-patch'` references `Conv2dClassifier`
(src/domain_cls.py:136), not defined in the module; `'conv-patch'` and
`'LSTM'` reference classes defined in the file; `'linear'` raises
NotImplementedError. -/
def domain_classifier_init_type (mtype : String) : Except String Unit :=
  if mtype = "conv" then do
    let _ ← resolveName domain_cls_module_scope "layers"
    let _ ← resolveName domain_cls_module_scope "norm_type"
    let _ ← resolveName domain_cls_module_scope "act"
    Except.ok ()
  else if mtype = "conv-patch" then do
    let _ ← resolveName domain_cls_module_scope "ConvPatchClassifier"
    Except.ok ()
  else if mtype = "conv2d-patch" then do
    let _ ← resolveName domain_cls_module_scope "Conv2dClassifier"
    Except.ok ()
  else if mtype = "LSTM" then do
    let _ ← resolveName domain_cls_module_scope "LSTMClassifer"
    Except.ok ()
  else if mtype = "linear" then
    Except.error "NotImplementedError"
  else
    Except.ok ()

instance {ε α : Type} [DecidableEq ε] [DecidableEq α] : DecidableEq (Except ε α) :=
  fun x y =>
    match x, y with
    | .ok a, .ok b => decidable_of_iff (a = b) (by simp)
    | .ok _, .error _ => isFalse (by simp)
    | .error _, .ok _ => isFalse (by simp)
    | .error e1, .error e2 => decidable_of_iff (e1 = e2) (by simp)

section InfDataGen

variable {α : Type}

lemma nthYield_rest (l : List α) (xs : List α) (k : Nat) :
    nthYield (⟨l, xs⟩ : GenState α) k =
      if k < xs.length then xs[k]? else nthYield (⟨l, []⟩ : GenState α) (k - xs.length) := by
  induction xs generalizing k with
  | nil => simp [Nat.not_lt_zero]
  | cons y ys ih =>
    cases k with
    | zero => simp [nthYield, genStep]
    | succ k =>
      have hstep : genStep (⟨l, y :: ys⟩ : GenState α) = some (y, ⟨l, ys⟩) := rfl
      rw [show nthYield (⟨l, y :: ys⟩ : GenState α) (k + 1) =
            nthYield (⟨l, ys⟩ : GenState α) k from by rw [nthYield, hstep]]
      rw [ih k]
      by_cases h : k < ys.length
      · rw [if_pos h, if_pos (by simpa using Nat.succ_lt_succ h)]
        simp
      · rw [if_neg h, if_neg (by simpa using fun hh => h (Nat.lt_of_succ_lt_succ hh))]
        congr 1
        simp only [List.length_cons]
        omega

lemma nthYield_empty_rest (l : List α) (hl : l ≠ []) (k : Nat) :
    nthYield (⟨l, []⟩ : GenState α) k = l[k % l.length]? := by
  induction k using Nat.strong_induction_on with
  | _ k ih =>
    obtain ⟨x, xs, rfl⟩ : ∃ x xs, l = x :: xs := by
      cases l with
      | nil => exact absurd rfl hl
      | cons a as => exact ⟨a, as, rfl⟩
    have hstep : genStep (⟨x :: xs, []⟩ : GenState α) = some (x, ⟨x :: xs, xs⟩) := rfl
    cases k with
    | zero =>
      simp [nthYield, hstep]
    | succ k =>
      rw [show nthYield (⟨x :: xs, []⟩ : GenState α) (k + 1) =
            nthYield (⟨x :: xs, xs⟩ : GenState α) k from by rw [nthYield, hstep]]
      rw [nthYield_rest]
      by_cases h : k < xs.length
      · rw [if_pos h]
        have hmod : (k + 1) % (x :: xs).length = k + 1 := by
          apply Nat.mod_eq_of_lt; simpa using Nat.succ_lt_succ h
        rw [hmod]
        simp
      · rw [if_neg h]
        have hlen : (x :: xs).length ≤ k + 1 := by
          simp only [List.length_cons]; omega
        have hsub : k - xs.length = (k + 1) - (x :: xs).length := by
          simp only [List.length_cons]; omega
        have hmod : (k + 1) % (x :: xs).length = ((k + 1) - (x :: xs).length) % (x :: xs).length :=
          Nat.mod_eq_sub_mod hlen
        rw [hsub, ih ((k + 1) - (x :: xs).length) (by simp only [List.length_cons]; omega), hmod]

end InfDataGen

/-- Claim C5: for a finite loader yielding a fixed sequence of `n ≥ 1` batches
per pass, `inf_data_gen(loader)` never stops yielding (no StopIteration), and
its `k`-th yielded element is the `(k mod n)`-th element of one pass over the
loader: it cycles by re-iterating the finite source when exhausted. -/
theorem c5_inf_data_gen_cycles {α : Type} (loader : List α) (hl : loader ≠ []) (k : Nat) :
    nthYield (inf_data_gen loader) k = loader[k % loader.length]? ∧
    nthYield (inf_data_gen loader) k ≠ none := by
  have h : nthYield (inf_data_gen loader) k = loader[k % loader.length]? :=
    nthYield_empty_rest loader hl k
  refine ⟨h, ?_⟩
  rw [h]
  have hpos : 0 < loader.length := List.length_pos.mpr hl
  have hlt : k % loader.length < loader.length := Nat.mod_lt _ hpos
  rw [List.getElem?_eq_getElem hlt]
  simp

/-- Witness for C5 at a concrete three-element loader. -/
theorem c5_witness :
    nthYield (inf_data_gen [(10 : Int), 20, 30]) 7 = some 20 := by
  have h := (c5_inf_data_gen_cycles [(10 : Int), 20, 30] (by simp) 7).1
  simpa using h

namespace wsj0

lemma length_pySlice {α : Type} (a : List α) (s e : Nat) :
    (pySlice a s e).length = min e a.length - s := by
  simp [pySlice]

lemma mem_seg_bounds_le (seg_len utt_len s e : Nat)
    (h : (s, e) ∈ seg_bounds seg_len utt_len) : e ≤ s + seg_len := by
  simp only [seg_bounds, List.mem_map, List.mem_range] at h
  obtain ⟨i, _, heq⟩ := h
  have hmul : (i + 1) * seg_len = i * seg_len + seg_len := by ring
  obtain ⟨hs, he⟩ := Prod.mk.injEq .. ▸ heq
  subst hs
  rw [hmul] at he
  split at he <;> split at he <;> omega

lemma pad_branch_length (seg_len : Nat) (a : List Int) (ilen : Nat)
    (ha : a.length = ilen) (h : ilen ≤ seg_len) :
    (if ilen < seg_len then pad_audio seg_len a ilen else a).length = seg_len := by
  split
  · simp [pad_audio, ← ha, List.take_length]
    omega
  · omega

lemma pad_branch_get (seg_len : Nat) (a : List Int) (ilen t : Nat)
    (ha : a.length = ilen) (h1 : ilen ≤ t) (h2 : t < seg_len) :
    (if ilen < seg_len then pad_audio seg_len a ilen else a)[t]? = some 0 := by
  have hlt : ilen < seg_len := lt_of_le_of_lt h1 h2
  rw [if_pos hlt]
  unfold pad_audio
  rw [← ha, List.take_length]
  rw [List.getElem?_append_right (by omega)]
  rw [List.getElem?_replicate]
  rw [if_pos (by omega)]

lemma finishItem_spec (seg_len : Nat) (uid cid : String) (mix s1 s2 : List Int)
    (s e : Nat) (h1 : s1.length = mix.length) (h2 : s2.length = mix.length)
    (hle : min e mix.length - s ≤ seg_len) :
    (finishItem seg_len uid cid mix s1 s2 s e).mix.length = seg_len ∧
    (finishItem seg_len uid cid mix s1 s2 s e).ilens ≤ seg_len ∧
    (∀ rf ∈ (finishItem seg_len uid cid mix s1 s2 s e).ref, rf.length = seg_len) ∧
    (∀ t, (finishItem seg_len uid cid mix s1 s2 s e).ilens ≤ t → t < seg_len →
      (finishItem seg_len uid cid mix s1 s2 s e).mix[t]? = some 0 ∧
      ∀ rf ∈ (finishItem seg_len uid cid mix s1 s2 s e).ref, rf[t]? = some 0) := by
  have lmix := length_pySlice mix s e
  have ls1 : (pySlice s1 s e).length = (pySlice mix s e).length := by
    rw [length_pySlice, length_pySlice, h1]
  have ls2 : (pySlice s2 s e).length = (pySlice mix s e).length := by
    rw [length_pySlice, length_pySlice, h2]
  have hlen : (pySlice mix s e).length ≤ seg_len := by rw [lmix]; exact hle
  have hmix : (finishItem seg_len uid cid mix s1 s2 s e).mix =
      (if (pySlice mix s e).length < seg_len
        then pad_audio seg_len (pySlice mix s e) (pySlice mix s e).length
        else pySlice mix s e) := rfl
  have href : (finishItem seg_len uid cid mix s1 s2 s e).ref =
      [(if (pySlice mix s e).length < seg_len
        then pad_audio seg_len (pySlice s1 s e) (pySlice mix s e).length
        else pySlice s1 s e),
       (if (pySlice mix s e).length < seg_len
        then pad_audio seg_len (pySlice s2 s e) (pySlice mix s e).length
        else pySlice s2 s e)] := rfl
  have hil : (finishItem seg_len uid cid mix s1 s2 s e).ilens =
      (pySlice mix s e).length := rfl
  refine ⟨?_, ?_, ?_, ?_⟩
  · rw [hmix]; exact pad_branch_length seg_len _ _ rfl hlen
  · rw [hil]; exact hlen
  · intro rf hrf
    rw [href] at hrf
    simp only [List.mem_cons, List.not_mem_nil, or_false] at hrf
    rcases hrf with rfl | rfl
    · exact pad_branch_length seg_len _ _ ls1 hlen
    · exact pad_branch_length seg_len _ _ ls2 hlen
  · intro t ht1 ht2
    rw [hil] at ht1
    refine ⟨?_, ?_⟩
    · rw [hmix]; exact pad_branch_get seg_len _ _ t rfl ht1 ht2
    · intro rf hrf
      rw [href] at hrf
      simp only [List.mem_cons, List.not_mem_nil, or_false] at hrf
      rcases hrf with rfl | rfl
      · exact pad_branch_get seg_len _ _ t ls1 ht1 ht2
      · exact pad_branch_get seg_len _ _ t ls2 ht1 ht2

end wsj0

/-- Claim C9 (implicit): in training mode with `one_chunk_in_utt` enabled, the
length filter of `wsj0.__init__` admits an utterance whose length equals the
configured segment length (`utt_len >= seg_len` holds with equality), yet for
such an utterance `wsj0.__getitem__` always fails: `random.randint(0, re - 1)`
is called with `re = 0`, an empty range, so indexing never returns a chunk
(for every possible random draw the result is an error, modelled `none`). -/
theorem c9_equal_length_admitted_but_getitem_fails (seg_len : Nat) (uid cid : String)
    (s e : Nat) (mix s1 s2 : List Int) (r : Nat) (h : mix.length = seg_len) :
    wsj0.tr_admits seg_len mix.length = true ∧
    wsj0.getitem seg_len true uid cid s e mix s1 s2 r = none := by
  constructor
  · simp [wsj0.tr_admits, h]
  · simp [wsj0.getitem, h]

/-- Witness for C9: an utterance of exactly the segment length (2 samples). -/
theorem c9_witness :
    wsj0.tr_admits 2 ([5, 7] : List Int).length = true ∧
    wsj0.getitem 2 true "u" "u" 0 0 [5, 7] [1, 2] [3, 4] 0 = none :=
  c9_equal_length_admitted_but_getitem_fails 2 "u" "u" 0 0 [5, 7] [1, 2] [3, 4] 0 rfl

/-- Claim C4: every sample produced by `wsj0.__getitem__` has mixture and
reference arrays of exactly the configured padded segment length, records
`input_len` (`ilens`) at most that length, and every position at index
`>= input_len` in the mixture and in each reference is zero.  The chunk
bounds are either drawn in `one_chunk` mode or come from the chunk list the
constructor builds (`seg_bounds`); reference channels have the same length
as the mixture (dataset manifest invariant). -/
theorem c4_padding_invariant (seg_len : Nat) (oc : Bool) (uid cid : String)
    (s e : Nat) (mix s1 s2 : List Int) (r : Nat) (sp : wsj0.Sample)
    (h1 : s1.length = mix.length) (h2 : s2.length = mix.length)
    (hbounds : oc = false → (s, e) ∈ wsj0.seg_bounds seg_len mix.length)
    (hget : wsj0.getitem seg_len oc uid cid s e mix s1 s2 r = some sp) :
    sp.mix.length = seg_len ∧
    sp.ilens ≤ seg_len ∧
    (∀ rf ∈ sp.ref, rf.length = seg_len) ∧
    (∀ t, sp.ilens ≤ t → t < seg_len →
      sp.mix[t]? = some 0 ∧ ∀ rf ∈ sp.ref, rf[t]? = some 0) := by
  cases oc with
  | true =>
    by_cases hL : mix.length ≤ seg_len
    · simp [wsj0.getitem, hL] at hget
    · have hpos : 0 < mix.length - seg_len := by omega
      have hget2 : some (wsj0.finishItem seg_len uid cid mix s1 s2
          (r % (mix.length - seg_len)) (r % (mix.length - seg_len) + seg_len)) = some sp := by
        simpa [wsj0.getitem, hL] using hget
      obtain rfl := Option.some.injEq .. ▸ hget2
      have hmod : r % (mix.length - seg_len) < mix.length - seg_len := Nat.mod_lt _ hpos
      exact wsj0.finishItem_spec seg_len uid cid mix s1 s2 _ _ h1 h2 (by omega)
  | false =>
    have hget2 : some (wsj0.finishItem seg_len uid cid mix s1 s2 s e) = some sp := by
      simpa [wsj0.getitem] using hget
    obtain rfl := Option.some.injEq .. ▸ hget2
    have hse := wsj0.mem_seg_bounds_le seg_len mix.length s e (hbounds rfl)
    exact wsj0.finishItem_spec seg_len uid cid mix s1 s2 s e h1 h2 (by omega)

/-- Witness for C4: a 4-sample segment drawn from a 6-sample utterance in
`one_chunk` mode (random seed 1 gives start 1), and a clipped final chunk
`[4, 6)` of the same utterance in chunk mode, which is zero-padded. -/
theorem c4_witness :
    (∃ sp, wsj0.getitem 4 true "u" "u" 0 0 [1, 2, 3, 4, 5, 6] [1, 1, 1, 1, 1, 1]
        [2, 2, 2, 2, 2, 2] 1 = some sp ∧ sp.mix.length = 4 ∧ sp.ilens ≤ 4) ∧
    (∃ sp, wsj0.getitem 4 false "u" "u" 4 6 [1, 2, 3, 4, 5, 6] [1, 1, 1, 1, 1, 1]
        [2, 2, 2, 2, 2, 2] 0 = some sp ∧
      sp.mix.length = 4 ∧ sp.ilens = 2 ∧ sp.mix[3]? = some 0) := by
  constructor
  · refine ⟨_, rfl, ?_⟩
    have h := c4_padding_invariant 4 true "u" "u" 0 0 [1, 2, 3, 4, 5, 6]
      [1, 1, 1, 1, 1, 1] [2, 2, 2, 2, 2, 2] 1 _ rfl rfl (by intro hc; cases hc) rfl
    exact ⟨h.1, h.2.1⟩
  · refine ⟨_, rfl, ?_⟩
    have h := c4_padding_invariant 4 false "u" "u" 4 6 [1, 2, 3, 4, 5, 6]
      [1, 1, 1, 1, 1, 1] [2, 2, 2, 2, 2, 2] 0 _ rfl rfl (by intro _; decide) rfl
    refine ⟨h.1, by decide, ?_⟩
    exact (h.2.2.2 3 (by decide) (by decide)).1

/-- Counterexample to C1 as stated: a split containing a single MM example.
The FF and MF counts are zero, and the division loop of
`Tester.evaluate` raises ZeroDivisionError (result `none`) instead of
producing averages that omit the empty categories. -/
theorem c1_counterexample :
    gender_SISNRi_avg [(Gender.MM, 3)] = none := by
  have hFF : (evalAccum [(Gender.MM, 3)]).2 Gender.FF = 0 := by
    simp [evalAccum]
  have hMM : (evalAccum [(Gender.MM, 3)]).2 Gender.MM = 1 := by
    simp [evalAccum]
  simp [gender_SISNRi_avg, genderList, genderDivLoop, pyDiv, hFF, hMM]

/-- Claim C1 (amended): the per-category averages are produced by dividing
each gender sum by its count unconditionally; when every category of
{MM, FF, MF} has a nonzero count the result lists each category's
sum/count, and when any category has zero samples the evaluation raises
ZeroDivisionError (no category is omitted). -/
theorem c1_division_unguarded (samples : List (Gender × ℚ)) :
    ((∃ g, (evalAccum samples).2 g = 0) → gender_SISNRi_avg samples = none) ∧
    ((∀ g, (evalAccum samples).2 g ≠ 0) →
      gender_SISNRi_avg samples =
        some (genderList.map
          (fun g => (g, (evalAccum samples).1 g / (evalAccum samples).2 g)))) := by
  constructor
  · rintro ⟨g, hg⟩
    cases g
    · simp [gender_SISNRi_avg, genderList, genderDivLoop, pyDiv, hg]
    · by_cases hMM : (evalAccum samples).2 Gender.MM = 0 <;>
        simp [gender_SISNRi_avg, genderList, genderDivLoop, pyDiv, hg, hMM]
    · by_cases hMM : (evalAccum samples).2 Gender.MM = 0 <;>
        by_cases hFF : (evalAccum samples).2 Gender.FF = 0 <;>
        simp [gender_SISNRi_avg, genderList, genderDivLoop, pyDiv, hg, hMM, hFF]
  · intro h
    have hMM := h Gender.MM
    have hFF := h Gender.FF
    have hMF := h Gender.MF
    simp [gender_SISNRi_avg, genderList, genderDivLoop, pyDiv, hMM, hFF, hMF]

/-- Witness for C1 (amended) on a split with one example per category. -/
theorem c1_witness :
    gender_SISNRi_avg [(Gender.MM, 1), (Gender.FF, 2), (Gender.MF, 3)] =
      some [(Gender.MM, 1), (Gender.FF, 2), (Gender.MF, 3)] := by
  have h := (c1_division_unguarded [(Gender.MM, 1), (Gender.FF, 2), (Gender.MF, 3)]).2
    (by intro g; cases g <;> simp [evalAccum])
  rw [h]
  simp only [genderList, evalAccum, List.foldl_cons, List.foldl_nil, List.map_cons,
    List.map_nil]
  simp

/-- Counterexample to C2 as stated: an iteration whose gradient norm is
non-finite (+inf) is NOT skipped — `math.isnan(inf)` is false, so
`optim.step()` runs and the parameters change. -/
theorem c2_counterexample :
    pyIsFinite PyFloat.inf = false ∧
    (train_dis_once [⟨1, PyFloat.inf, fun p => p + 1⟩] (0 : Int)).params = 1 :=
  ⟨rfl, rfl⟩

lemma train_dis_foldl {α : Type} (iters : List (DisIter α)) (st : DisState α) :
    iters.foldl disUpdate st =
      ⟨(iters.filter (fun it => ! pyIsNan it.grad_norm)).foldl
          (fun p it => it.optimStep p) st.params,
        st.total_d_loss + (iters.map DisIter.d_loss).sum,
        st.nan_logs + (iters.filter (fun it => pyIsNan it.grad_norm)).length⟩ := by
  induction iters generalizing st with
  | nil => simp
  | cons it rest ih =>
    simp only [List.foldl_cons]
    rw [ih]
    by_cases h : pyIsNan it.grad_norm = true
    · simp [disUpdate, h, List.filter_cons, DisState.mk.injEq, add_assoc]
      omega
    · have h2 : pyIsNan it.grad_norm = false := by
        cases hx : pyIsNan it.grad_norm
        · rfl
        · exact absurd hx h
      simp [disUpdate, h2, List.filter_cons, DisState.mk.injEq, add_assoc]

/-- Claim C2 (amended): only a NaN gradient norm causes the optimizer step
to be skipped — a non-NaN norm, including an infinite one, still steps.  The
loop never aborts: every iteration's loss is accumulated into the logged
`total_d_loss`, the final parameters are the fold of the optimizer steps
over exactly the non-NaN iterations, and each NaN iteration prints one
error line. -/
theorem c2_nan_only_guard {α : Type} (iters : List (DisIter α)) (p0 : α) :
    (train_dis_once iters p0).params =
      (iters.filter (fun it => ! pyIsNan it.grad_norm)).foldl
        (fun p it => it.optimStep p) p0 ∧
    (train_dis_once iters p0).total_d_loss = (iters.map DisIter.d_loss).sum ∧
    (train_dis_once iters p0).nan_logs =
      (iters.filter (fun it => pyIsNan it.grad_norm)).length := by
  unfold train_dis_once
  rw [train_dis_foldl]
  exact ⟨rfl, by simp, by simp⟩

/-- Claim C3 is a code bug: the checkpoint that `train_uns.Trainer.valid`
writes stores the counter under key `'step'` and has no `'epoch'` entry, so
the resume path `self.start_epoch = info_dict['epoch'] + 1` raises KeyError;
moreover the training loop iterates `range(self.start_step, total_steps)`
with `start_step` taken from the config (here 0), not from the checkpoint,
so the first executed step is not the successor of the checkpointed step
(100).  In train_cmvn the epoch counter is restored (`epoch + 1`), but its
own records contain no `'step'` entry, so the internal `self.step` counter
restarts at 0 instead of its checkpointed value. -/
theorem c3_resume_counters_not_from_checkpoint :
    uns_saved_record 100 "step" = some 100 ∧
    uns_saved_record 100 "epoch" = none ∧
    uns_resume_start_epoch (uns_saved_record 100) = none ∧
    uns_exec_steps 0 3 = [0, 1, 2] ∧
    (uns_exec_steps 0 3).head? ≠ some 101 ∧
    cmvn_saved_record 7 "step" = none ∧
    cmvn_resume_step (cmvn_saved_record 7) = 0 ∧
    cmvn_resume_start_epoch (cmvn_saved_record 7) = some 8 := by decide

/-- Claim C7 is a code bug: with two held-out (cv) batches of PIT loss 1 and
3 and a training loader of 4 batches, `train_uns.Trainer.valid` reports
(1+3)/4 = 1 (it divides by `len(self.tr_loader)`), while the mean over the
held-out set it iterated is (1+3)/2 = 2. -/
theorem c7_valid_divides_by_training_loader_length :
    uns_valid_loss [1, 3] 4 = 1 ∧
    (([(1 : ℚ), 3].foldl (fun acc l => acc + l) 0) / (([(1 : ℚ), 3].length : ℚ)) = 2) ∧
    uns_valid_loss [1, 3] 4 ≠ 2 := by
  refine ⟨?_, ?_, ?_⟩ <;> norm_num [uns_valid_loss]

/-- Counterexample to C10 as stated: the `'conv2d-patch'` branch references
`Conv2dClassifier`, a name not defined anywhere in src/domain_cls.py, so
that type can never be constructed either. -/
theorem c10_counterexample :
    domain_classifier_init_type "conv2d-patch" =
      Except.error "NameError: name Conv2dClassifier is not defined" := by decide

/-- Claim C10 (amended): the `'conv'` branch always raises NameError (it
references `layers`, which is bound nowhere in scope), and so does the
`'conv2d-patch'` branch (`Conv2dClassifier` is undefined in the module);
of the enumerated types only `'conv-patch'` and `'LSTM'` resolve all the
names they reference and can be constructed successfully. -/
theorem c10_only_patch_and_lstm_constructible :
    domain_classifier_init_type "conv" =
      Except.error "NameError: name layers is not defined" ∧
    domain_classifier_init_type "conv2d-patch" =
      Except.error "NameError: name Conv2dClassifier is not defined" ∧
    domain_classifier_init_type "conv-patch" = Except.ok () ∧
    domain_classifier_init_type "LSTM" = Except.ok () := by decide

/-- Counterexample to C6 as stated: for a batch of B = 2 examples with
single-sample sources, `torch.chunk(estimate, 2, dim = 0)` splits the BATCH
dimension, so the code's remix row 0 is `est[0][0] + est[1][0] = [11]`,
not the claimed `est[0][0] + est[0][1] = [3]`. -/
theorem c6_counterexample :
    uns_remix [[[1], [2]], [[10], [20]]] = [[11], [22]] ∧
    claimed_remix [[[1], [2]], [[10], [20]]] = [[3], [30]] ∧
    uns_remix [[[1], [2]], [[10], [20]]] ≠ claimed_remix [[[1], [2]], [[10], [20]]] := by
  decide

lemma getElem?_of_some_lt {β : Type} (l : List β) (i : Nat) (x : β)
    (h : l[i]? = some x) : i < l.length := by
  by_contra hc
  rw [List.getElem?_eq_none (by omega)] at h
  cases h

lemma flatten_rows_two {β : Type} (l : List (List β))
    (h2 : ∀ x ∈ l, x.length = 2) :
    ∀ i c : Nat, c < 2 → i < l.length → l.flatten[2 * i + c]? = (l.getD i [])[c]? := by
  induction l with
  | nil => intro i c _ hi; simp at hi
  | cons x xs ih =>
    intro i c hc hi
    have hx : x.length = 2 := h2 x (List.mem_cons_self x xs)
    cases i with
    | zero =>
      rw [List.flatten_cons, Nat.mul_zero, Nat.zero_add,
        List.getElem?_append_left (by omega)]
      simp
    | succ i =>
      rw [List.flatten_cons,
        show 2 * (i + 1) + c = x.length + (2 * i + c) by omega,
        List.getElem?_append_right (by omega), Nat.add_sub_cancel_left,
        ih (fun y hy => h2 y (List.mem_cons_of_mem x hy)) i c hc
          (by simpa using Nat.lt_of_succ_lt_succ (by simpa using hi))]
      simp

lemma uns_remix_row (est : Tensor3) (n j : Nat) (hB : est.length = 2 * n)
    (hj : j < n) :
    (add_t3 (est.take n) (est.drop n))[j]? =
      some (List.zipWith (List.zipWith (· + ·)) (est.getD j []) (est.getD (n + j) [])) := by
  have hj1 : j < est.length := by omega
  have hj2 : n + j < est.length := by omega
  have h1 : (est.take n)[j]? = some (est.getD j []) := by
    rw [List.getElem?_take, if_pos hj, List.getD_eq_getElem est [] hj1,
      List.getElem?_eq_getElem hj1]
  have h2 : (est.drop n)[j]? = some (est.getD (n + j) []) := by
    rw [List.getElem?_drop, List.getD_eq_getElem est [] hj2,
      List.getElem?_eq_getElem hj2]
  unfold add_t3
  rw [List.getElem?_zipWith, h1, h2]

/-- Claim C6 (amended): for a `[B][2][T]` estimate tensor with an even batch
B = 2n, row `2*i + c` of the remix fed to the discriminator is the
elementwise sum of estimated source `c` of example `i` and estimated source
`c` of example `i + n`: the remix pairs each example of the first half of
the batch with its counterpart in the second half and adds their
same-indexed estimated sources — it does not sum an example's own two
sources. -/
theorem c6_remix_pairs_batch_halves (est : Tensor3) (n : Nat)
    (hB : est.length = 2 * n) (hC : ∀ ex ∈ est, ex.length = 2)
    (i c : Nat) (hi : i < n) (hc : c < 2) :
    (uns_remix est)[2 * i + c]? =
      some (List.zipWith (· + ·) ((est.getD i []).getD c [])
        ((est.getD (n + i) []).getD c [])) := by
  have hk : (est.length + 1) / 2 = n := by omega
  have hrow := uns_remix_row est n i hB hi
  have hAlen : (add_t3 (est.take n) (est.drop n)).length = n := by
    unfold add_t3
    rw [List.length_zipWith, List.length_take, List.length_drop, hB]
    omega
  have hA2 : ∀ x ∈ add_t3 (est.take n) (est.drop n), x.length = 2 := by
    intro x hx
    obtain ⟨m, hm⟩ := List.get_of_mem hx
    have hmem : (add_t3 (est.take n) (est.drop n))[m.1]? = some x := by
      rw [List.getElem?_eq_getElem m.2]; simpa using hm
    have hmlt : m.1 < n := by
      have hm2 := m.2
      omega
    rw [uns_remix_row est n m.1 hB hmlt] at hmem
    obtain rfl := Option.some.injEq .. ▸ hmem
    have e1 : (est.getD m.1 []).length = 2 := by
      rw [List.getD_eq_getElem est [] (by omega)]
      exact hC _ (List.getElem_mem (by omega))
    have e2 : (est.getD (n + m.1) []).length = 2 := by
      rw [List.getD_eq_getElem est [] (by omega)]
      exact hC _ (List.getElem_mem (by omega))
    rw [List.length_zipWith, e1, e2]
    simp
  have hstep1 : uns_remix est = (add_t3 (est.take n) (est.drop n)).flatten := by
    unfold uns_remix chunk2_dim0 view_rows
    rw [hk]
  rw [hstep1, flatten_rows_two _ hA2 i c hc (by rw [hAlen]; exact hi),
    List.getD_eq_getElem?_getD, hrow]
  have e1 : (est.getD i []).length = 2 := by
    rw [List.getD_eq_getElem est [] (by omega)]
    exact hC _ (List.getElem_mem (by omega))
  have e2 : (est.getD (n + i) []).length = 2 := by
    rw [List.getD_eq_getElem est [] (by omega)]
    exact hC _ (List.getElem_mem (by omega))
  simp only [Option.getD_some]
  rw [List.getElem?_zipWith,
    List.getElem?_eq_getElem (by omega : c < (est.getD i []).length),
    List.getElem?_eq_getElem (by omega : c < (est.getD (n + i) []).length)]
  rw [List.getD_eq_getElem _ [] (by omega : c < (est.getD i []).length),
    List.getD_eq_getElem _ [] (by omega : c < (est.getD (n + i) []).length)]

/-- Witness for C6 (amended): the counterexample batch, n = 1, i = 0, c = 0:
the code's remix row 0 is [1 + 10] = [11]. -/
theorem c6_witness :
    (uns_remix [[[1], [2]], [[10], [20]]])[0]? = some [11] := by
  have h := c6_remix_pairs_batch_halves [[[1], [2]], [[10], [20]]] 1 rfl
    (by decide) 0 0 (by decide) (by decide)
  simpa using h

lemma vec_add_length (a b : List ℚ) : (vec_add a b).length = min a.length b.length := by
  simp [vec_add]

lemma vec_add_getD (a b : List ℚ) (f : Nat) (ha : f < a.length) (hb : f < b.length) :
    (vec_add a b).getD f 0 = a.getD f 0 + b.getD f 0 := by
  unfold vec_add
  rw [List.getD_eq_getElem _ 0 (by rw [List.length_zipWith]; omega),
    List.getElem_zipWith, List.getD_eq_getElem a 0 ha, List.getD_eq_getElem b 0 hb]

lemma vec_foldl_length (l : List (List ℚ)) : ∀ init : List ℚ,
    (∀ v ∈ l, v.length = init.length) → (l.foldl vec_add init).length = init.length := by
  induction l with
  | nil => intro init _; rfl
  | cons v vs ih =>
    intro init h
    have hv : v.length = init.length := h v (List.mem_cons_self v vs)
    have hlen : (vec_add init v).length = init.length := by
      rw [vec_add_length]; omega
    rw [List.foldl_cons, ih (vec_add init v)
      (fun y hy => by rw [hlen]; exact h y (List.mem_cons_of_mem v hy)), hlen]

lemma vec_foldl_getD (f : Nat) (l : List (List ℚ)) : ∀ init : List ℚ,
    f < init.length → (∀ v ∈ l, v.length = init.length) →
    (l.foldl vec_add init).getD f 0 =
      init.getD f 0 + (l.map (fun v => v.getD f 0)).sum := by
  induction l with
  | nil => intro init _ _; simp
  | cons v vs ih =>
    intro init hf h
    have hv : v.length = init.length := h v (List.mem_cons_self v vs)
    have hlen : (vec_add init v).length = init.length := by
      rw [vec_add_length]; omega
    rw [List.foldl_cons, ih (vec_add init v) (by omega)
      (fun y hy => by rw [hlen]; exact h y (List.mem_cons_of_mem v hy)),
      vec_add_getD init v f hf (by omega), List.map_cons, List.sum_cons, add_assoc]

lemma vec_sum0_length (F : Nat) (l : List (List ℚ)) (h : ∀ v ∈ l, v.length = F) :
    (vec_sum0 F l).length = F := by
  unfold vec_sum0
  rw [vec_foldl_length l (List.replicate F 0) (by simpa using h)]
  simp

lemma vec_sum0_getD (F : Nat) (l : List (List ℚ)) (f : Nat) (hf : f < F)
    (h : ∀ v ∈ l, v.length = F) :
    (vec_sum0 F l).getD f 0 = (l.map (fun v => v.getD f 0)).sum := by
  unfold vec_sum0
  rw [vec_foldl_getD f l (List.replicate F 0) (by simpa using hf) (by simpa using h),
    List.getD_eq_getElem _ 0 (by simpa using hf)]
  simp

lemma vec_div_getElem? (v : List ℚ) (c : ℚ) (f : Nat) (hf : f < v.length) :
    (vec_div v c)[f]? = some (v.getD f 0 / c) := by
  unfold vec_div
  rw [List.getElem?_map, List.getElem?_eq_getElem hf, List.getD_eq_getElem v 0 hf]
  rfl

lemma vec_scale_getD (c : ℚ) (v : List ℚ) (f : Nat) (hf : f < v.length) :
    (vec_scale c v).getD f 0 = c * v.getD f 0 := by
  unfold vec_scale
  rw [List.getD_eq_getElem _ 0 (by simpa using hf), List.getElem_map,
    List.getD_eq_getElem v 0 hf]

lemma weighted_avg_length (F : Nat) (utts : List FeatMat) (vfun : FeatMat → List ℚ)
    (hlen : ∀ spec ∈ utts, (vfun spec).length = F) :
    (vec_div
      (vec_sum0 F ((utts.map (fun spec => (vfun spec, mat_frames spec))).map
        (fun p => vec_scale ((p.2 : ℚ)) p.1)))
      (((utts.map (fun spec => (vfun spec, mat_frames spec))).map
        (fun p => ((p.2 : ℚ)))).sum)).length = F := by
  have hscaled : ∀ v ∈ (utts.map (fun spec => (vfun spec, mat_frames spec))).map
      (fun p => vec_scale ((p.2 : ℚ)) p.1), v.length = F := by
    intro v hv
    rw [List.map_map] at hv
    obtain ⟨spec, hs, rfl⟩ := List.mem_map.mp hv
    simpa [vec_scale] using hlen spec hs
  unfold vec_div
  rw [List.length_map, vec_sum0_length F _ hscaled]

lemma weighted_avg_get (F : Nat) (utts : List FeatMat) (vfun : FeatMat → List ℚ)
    (f : Nat) (hf : f < F) (hlen : ∀ spec ∈ utts, (vfun spec).length = F) :
    (vec_div
      (vec_sum0 F ((utts.map (fun spec => (vfun spec, mat_frames spec))).map
        (fun p => vec_scale ((p.2 : ℚ)) p.1)))
      (((utts.map (fun spec => (vfun spec, mat_frames spec))).map
        (fun p => ((p.2 : ℚ)))).sum))[f]? =
      some ((utts.map (fun spec => ((mat_frames spec : ℚ)) * (vfun spec).getD f 0)).sum /
        ((utts.map (fun spec => ((mat_frames spec : ℚ)))).sum)) := by
  have hscaled : ∀ v ∈ (utts.map (fun spec => (vfun spec, mat_frames spec))).map
      (fun p => vec_scale ((p.2 : ℚ)) p.1), v.length = F := by
    intro v hv
    rw [List.map_map] at hv
    obtain ⟨spec, hs, rfl⟩ := List.mem_map.mp hv
    simpa [vec_scale] using hlen spec hs
  have hslen : f < (vec_sum0 F ((utts.map (fun spec => (vfun spec, mat_frames spec))).map
      (fun p => vec_scale ((p.2 : ℚ)) p.1))).length := by
    rw [vec_sum0_length F _ hscaled]; exact hf
  rw [vec_div_getElem? _ _ f hslen, vec_sum0_getD F _ f hf hscaled]
  have h1 : (((utts.map (fun spec => (vfun spec, mat_frames spec))).map
        (fun p => vec_scale ((p.2 : ℚ)) p.1)).map (fun v => v.getD f 0)) =
      utts.map (fun spec => ((mat_frames spec : ℚ)) * (vfun spec).getD f 0) := by
    rw [List.map_map, List.map_map]
    exact List.map_congr_left (fun spec hs => by
      simp only [Function.comp]
      exact vec_scale_getD _ _ f (by rw [hlen spec hs]; exact hf))
  have h2 : ((utts.map (fun spec => (vfun spec, mat_frames spec))).map
        (fun p => ((p.2 : ℚ)))) = utts.map (fun spec => ((mat_frames spec : ℚ))) := by
    rw [List.map_map]
    rfl
  rw [h1, h2]

lemma mat_mean_last_length (spec : FeatMat) : (mat_mean_last spec).length = spec.length := by
  simp [mat_mean_last]

lemma mat_mean_last_getD (spec : FeatMat) (f : Nat) (hf : f < spec.length) :
    (mat_mean_last spec).getD f 0 =
      (spec.getD f []).sum / (((spec.getD f []).length : ℚ)) := by
  unfold mat_mean_last
  rw [List.getD_eq_getElem _ 0 (by simpa using hf), List.getElem_map,
    List.getD_eq_getElem spec [] hf]

lemma row_length_frames (spec : FeatMat) (f : Nat) (hf : f < spec.length)
    (hr : ∀ row ∈ spec, row.length = mat_frames spec) :
    (spec.getD f []).length = mat_frames spec := by
  rw [List.getD_eq_getElem spec [] hf]
  exact hr _ (List.getElem_mem hf)

lemma utt_sq_dev_length (m : List ℚ) (spec : FeatMat) :
    (utt_sq_dev m spec).length = min spec.length m.length := by
  simp [utt_sq_dev]

lemma utt_sq_dev_getD (m : List ℚ) (spec : FeatMat) (f : Nat)
    (hf1 : f < spec.length) (hf2 : f < m.length) :
    (utt_sq_dev m spec).getD f 0 =
      ((spec.getD f []).map (fun x => (x - m.getD f 0) ^ 2)).sum /
        (((spec.getD f []).length : ℚ)) := by
  unfold utt_sq_dev
  rw [List.getD_eq_getElem _ 0 (by rw [List.length_zipWith]; omega),
    List.getElem_zipWith, List.getD_eq_getElem spec [] hf1, List.getD_eq_getElem m 0 hf2]

/-- Claim C8: the cmvn pre-pass computes, per feature channel `f`, the mean
as the frame-count-weighted average of the per-utterance encoder-feature
means, and then the variance as the frame-count-weighted average of each
utterance's mean squared deviation from that fixed mean; and the model's
encoder and decoder parameters are frozen (`requires_grad = False`, hence no
gradient) for this variant's training.  Hypotheses: every utterance's
feature matrix has `F` feature rows and rectangular rows of its frame
count. -/
theorem c8_cmvn_stats_and_freeze (F : Nat) (utts : List FeatMat)
    (hF : ∀ spec ∈ utts, spec.length = F)
    (hrect : ∀ spec ∈ utts, ∀ row ∈ spec, row.length = mat_frames spec) :
    (∀ f, f < F →
      (comp_norm_stat F utts).1[f]? =
        some ((utts.map (fun spec => ((mat_frames spec : ℚ)) *
            ((spec.getD f []).sum / ((mat_frames spec : ℚ))))).sum /
          ((utts.map (fun spec => ((mat_frames spec : ℚ)))).sum)) ∧
      (comp_norm_stat F utts).2[f]? =
        some ((utts.map (fun spec => ((mat_frames spec : ℚ)) *
            (((spec.getD f []).map
                (fun x => (x - (comp_mean F utts).getD f 0) ^ 2)).sum /
              ((mat_frames spec : ℚ))))).sum /
          ((utts.map (fun spec => ((mat_frames spec : ℚ)))).sum))) ∧
    (∀ ps : List PyParam, ∀ p ∈ freeze_module ps, p.requires_grad = false) := by
  constructor
  · intro f hf
    have hm_len : ∀ spec ∈ utts, (mat_mean_last spec).length = F := fun spec hs => by
      rw [mat_mean_last_length]; exact hF spec hs
    have hM : (comp_mean F utts).length = F := weighted_avg_length F utts mat_mean_last hm_len
    constructor
    · have h := weighted_avg_get F utts mat_mean_last f hf hm_len
      have hxy : utts.map (fun spec => ((mat_frames spec : ℚ)) * (mat_mean_last spec).getD f 0)
          = utts.map (fun spec => ((mat_frames spec : ℚ)) *
              ((spec.getD f []).sum / ((mat_frames spec : ℚ)))) :=
        List.map_congr_left (fun spec hs => by
          rw [mat_mean_last_getD spec f (by rw [hF spec hs]; exact hf),
            row_length_frames spec f (by rw [hF spec hs]; exact hf) (hrect spec hs)])
      rw [hxy] at h
      exact h
    · have hv_len : ∀ spec ∈ utts, (utt_sq_dev (comp_mean F utts) spec).length = F :=
        fun spec hs => by
          rw [utt_sq_dev_length, hF spec hs, hM]
          simp
      have h := weighted_avg_get F utts (utt_sq_dev (comp_mean F utts)) f hf hv_len
      have hxy : utts.map (fun spec =>
            ((mat_frames spec : ℚ)) * (utt_sq_dev (comp_mean F utts) spec).getD f 0)
          = utts.map (fun spec => ((mat_frames spec : ℚ)) *
              (((spec.getD f []).map
                  (fun x => (x - (comp_mean F utts).getD f 0) ^ 2)).sum /
                ((mat_frames spec : ℚ)))) :=
        List.map_congr_left (fun spec hs => by
          rw [utt_sq_dev_getD (comp_mean F utts) spec f (by rw [hF spec hs]; exact hf)
              (by rw [hM]; exact hf),
            row_length_frames spec f (by rw [hF spec hs]; exact hf) (hrect spec hs)])
      rw [hxy] at h
      exact h
  · intro ps p hp
    obtain ⟨q, _, rfl⟩ := List.mem_map.mp hp
    rfl

/-- Witness for C8: two utterances with one feature channel, frame counts 2
and 1; the weighted mean is (2*2 + 1*5)/3 = 3 and the weighted variance is
(2*2 + 1*4)/3 = 8/3. -/
theorem c8_witness :
    (comp_norm_stat 1 [[[1, 3]], [[5]]]).1[0]? = some (3 : ℚ) ∧
    (comp_norm_stat 1 [[[1, 3]], [[5]]]).2[0]? = some ((8 : ℚ) / 3) ∧
    ∀ p ∈ freeze_module [⟨true⟩, ⟨false⟩], p.requires_grad = false := by
  have h := c8_cmvn_stats_and_freeze 1 [[[1, 3]], [[5]]]
    (by
      intro spec hs
      simp only [List.mem_cons, List.not_mem_nil, or_false] at hs
      rcases hs with rfl | rfl <;> rfl)
    (by
      intro spec hs
      simp only [List.mem_cons, List.not_mem_nil, or_false] at hs
      rcases hs with rfl | rfl <;>
        (intro row hr
         simp only [List.mem_cons, List.not_mem_nil, or_false] at hr
         rcases hr with rfl
         rfl))
  obtain ⟨hm, hv⟩ := h.1 0 (by norm_num)
  refine ⟨?_, ?_, h.2 [⟨true⟩, ⟨false⟩]⟩
  · rw [hm]
    simp [mat_frames]
    norm_num
  · rw [hv]
    have hmean : (comp_mean 1 [[[1, 3]], [[5]]]).getD 0 0 = 3 := by
      simp [comp_mean, mat_mean_last, mat_frames, vec_div, vec_sum0, vec_add, vec_scale]
      norm_num
    rw [hmean]
    simp [mat_frames]
    norm_num
